import Mathlib

/-!
Verification development for the CEX-spider data fetcher.

The embedded code is `DataFetcher.fetchSymbolData` and
`DataFetcher.writeDataToCSV` from `src/modules/dataFetcher.ts`:
the symbol resolver, the paginated candle-fetch loop, and the CSV
serializer with its default output-path derivation.

Modelling conventions:
* JavaScript runtime values flowing through the OHLCV arrays are embedded
  as `JSValue` (numbers restricted to integers, which is all the fetch
  logic inspects: candle timestamps in milliseconds).
* The exchange adapter is a parameter: `loadMarkets` is an `Except` value
  (the market catalog's key set, or a raised error) and `fetchOHLCV` is a
  function from (resolved symbol, since, limit) to an `Except` page.
* The unbounded `while (true)` loop is given explicit fuel; a result of
  `Except.ok none` means the fuel ran out before the loop terminated,
  `Except.ok (some (data, n))` means the loop returned `data` after `n`
  fetch requests, and `Except.error e` means an adapter error propagated.
* File-system effects of the CSV writer are not modelled; the embedded
  functions produce the CSV text and the target path, which is everything
  the claims are about.
-/

namespace CexSpider

/-- A JavaScript runtime value as it can appear inside an OHLCV response
array.  Numbers are restricted to integers: the fetch loop only ever reads
millisecond timestamps from them. -/
inductive JSValue where
  | num (n : Int)
  | str (s : String)
  | boolean (b : Bool)
  | null
  | undef
  | arr (elems : List JSValue)

/-- The timestamp the loop accepts from a page's last entry.  The source
checks `lastEntry && Array.isArray(lastEntry) && lastEntry.length > 0` and
then `typeof lastEntry[0] === 'number'`; every JavaScript array is truthy,
so the whole guard succeeds exactly when the value is a non-empty array
whose first element is a number. -/
def candleTimestamp? : JSValue → Option Int
  | JSValue.arr (JSValue.num t :: _) => some t
  | _ => none

/-- The timestamp of a candle entry, defaulting to `0` for entries that do
not carry a valid numeric timestamp (only used under hypotheses that rule
the default out). -/
def candleTs (v : JSValue) : Int := (candleTimestamp? v).getD 0

/-- The timestamps of a candle series, in order. -/
def seriesTs (l : List JSValue) : List Int := l.map candleTs

/-- Models JavaScript `String.prototype.replace` with a plain
single-character string pattern: only the first occurrence is replaced
(all `replace` calls in the source use one-character patterns). -/
def replaceFirstAux : List Char → Char → Char → List Char
  | [], _, _ => []
  | c :: cs, p, r => if c = p then r :: cs else c :: replaceFirstAux cs p r

/-- `jsReplaceFirst s p r` is `s.replace(p, r)` in JavaScript for a
one-character pattern `p`: the first occurrence of `p`, if any, becomes
`r`. -/
def jsReplaceFirst (s : String) (p r : Char) : String :=
  String.mk (replaceFirstAux s.data p r)

/-- Symbol resolution from `fetchSymbolData`: if the symbol is a key of
the market catalog it is used verbatim; otherwise the variants
`[symbol, symbol.replace('/', '-'), symbol.replace('/', '_')]` are tried
in order and the first one present in the catalog is used; `none` signals
that the trading pair was not found. -/
def resolveSymbol (markets : List String) (symbol : String) : Option String :=
  if markets.contains symbol then some symbol
  else
    [symbol, jsReplaceFirst symbol '/' '-', jsReplaceFirst symbol '/' '_'].find?
      (fun variant => markets.contains variant)

/-- `new Date('2020-01-01').getTime()`: 2020-01-01T00:00:00Z in
milliseconds. -/
def defaultStartDate : Int := 1577836800000

/-- `since || new Date('2020-01-01').getTime()`: JavaScript `||` falls
back on any falsy value, so both an absent `since` and a `since` of `0`
yield the default start date. -/
def startDate : Option Int → Int
  | some s => if s = 0 then defaultStartDate else s
  | none => defaultStartDate

/-- The `while (true)` pagination loop of `fetchSymbolData`.  Each
iteration increments the request counter, issues `fetchOHLCV` at the
current cursor, stops on an empty page, otherwise appends the page,
advances the cursor to (last timestamp + 1) — stopping if the page's last
entry has no valid numeric timestamp — and finally stops if the page was
shorter than the limit.  `fuel` bounds the number of iterations the model
can unfold; exhausting it yields `none`. -/
def fetchLoop (f : String → Int → Nat → Except ε (List JSValue)) (sym : String)
    (limit : Nat) : Nat → Int → List JSValue → Nat →
    Except ε (Option (List JSValue × Nat))
  | 0, _, _, _ => Except.ok none
  | fuel + 1, currentSince, allData, totalRequests =>
    match f sym currentSince limit with
    | Except.error e => Except.error e
    | Except.ok ohlcv =>
      let n := totalRequests + 1
      if ohlcv.isEmpty then
        Except.ok (some (allData, n))
      else
        let allData' := allData ++ ohlcv
        match candleTimestamp? (ohlcv.getLast?.getD JSValue.undef) with
        | some t =>
          if ohlcv.length < limit then
            Except.ok (some (allData', n))
          else
            fetchLoop f sym limit fuel (t + 1) allData' n
        | none => Except.ok (some (allData', n))

/-- `DataFetcher.fetchSymbolData`: load the markets (an adapter error
propagates), resolve the symbol (an unresolved symbol yields an empty
series with zero fetch requests), then run the pagination loop from the
start date. -/
def fetchSymbolData (loadMarkets : Except ε (List String))
    (f : String → Int → Nat → Except ε (List JSValue)) (fuel : Nat)
    (symbol : String) (since : Option Int) (limit : Nat) :
    Except ε (Option (List JSValue × Nat)) :=
  match loadMarkets with
  | Except.error e => Except.error e
  | Except.ok markets =>
    match resolveSymbol markets symbol with
    | none => Except.ok (some ([], 0))
    | some sym => fetchLoop f sym limit fuel (startDate since) [] 0

/-- A candle row as consumed by `writeDataToCSV`, destructured from
`[timestamp, open, high, low, close, volume]`.  The timestamp is the
integer millisecond value; the five numeric fields are carried as the
decimal strings JavaScript template-literal interpolation renders them to
(their rendering is a runtime builtin, outside this repository). -/
structure CsvRow where
  ts : Int
  o : String
  h : String
  l : String
  c : String
  v : String
deriving DecidableEq, Repr

/-- Proleptic-Gregorian civil date `(year, month, day)` of a day count
relative to 1970-01-01 (Howard Hinnant's `civil_from_days`); the month is
already 1-based, matching `getMonth() + 1` in the source. -/
def civilFromDays (z0 : Int) : Int × Int × Int :=
  let z := z0 + 719468
  let era := Int.fdiv z 146097
  let doe := z - era * 146097
  let yoe := (doe - doe / 1460 + doe / 36524 - doe / 146096) / 365
  let y := yoe + era * 400
  let doy := doe - (365 * yoe + yoe / 4 - yoe / 100)
  let mp := (5 * doy + 2) / 153
  let d := doy - (153 * mp + 2) / 5 + 1
  let m := if mp < 10 then mp + 3 else mp - 9
  (if m ≤ 2 then y + 1 else y, m, d)

/-- `String(x).padStart(2, '0')` for the month and day numbers. -/
def pad2 (n : Int) : String := if n < 10 then "0" ++ toString n else toString n

/-- The `YYYY-MM-DD` string `writeDataToCSV` builds from
`new Date(timestamp)` via the local-time getters `getFullYear`,
`getMonth() + 1` and `getDate`.  The environment's UTC offset (in
milliseconds, as added to the timestamp to obtain local time) is an
explicit parameter `tzOffsetMs`. -/
def formattedDate (tzOffsetMs timestamp : Int) : String :=
  match civilFromDays (Int.fdiv (timestamp + tzOffsetMs) 86400000) with
  | (y, m, d) => toString y ++ "-" ++ pad2 m ++ "-" ++ pad2 d

/-- One CSV data row:
`"${formattedDate}",${open},${high},${low},${close},${volume}\n`. -/
def csvRowLine (tzOffsetMs : Int) (row : CsvRow) : String :=
  "\"" ++ formattedDate tzOffsetMs row.ts ++ "\"," ++ row.o ++ "," ++
    row.h ++ "," ++ row.l ++ "," ++ row.c ++ "," ++ row.v ++ "\n"

/-- The CSV header line. -/
def csvHeader : String := "timestamp,open,high,low,close,volume\n"

/-- The full CSV text `writeDataToCSV` writes: the fixed header, then one
row appended per candle, in order. -/
def csvContent (tzOffsetMs : Int) (data : List CsvRow) : String :=
  data.foldl (fun acc item => acc ++ csvRowLine tzOffsetMs item) csvHeader

/-- `symbol.replace('/', '-').replace('\\', '-')`: the first `/` and then
the first `\` are each replaced by `-`. -/
def cleanSymbol (symbol : String) : String :=
  jsReplaceFirst (jsReplaceFirst symbol '/' '-') '\\' '-'

/-- The default CSV path `./data/{exchangeId}_{cleanSymbol}_daily.csv`. -/
def defaultCsvPath (exchangeId symbol : String) : String :=
  "./data/" ++ exchangeId ++ "_" ++ cleanSymbol symbol ++ "_daily.csv"

/-- The target path of `writeDataToCSV`: the explicit path when one is
given (JavaScript `if (!filePath)` also treats the empty string as
absent), otherwise the derived default path. -/
def resolveCsvPath (exchangeId symbol : String) (filePath : Option String) :
    String :=
  match filePath with
  | some p => if p = "" then defaultCsvPath exchangeId symbol else p
  | none => defaultCsvPath exchangeId symbol

/-- Replace every occurrence of a character. -/
def replaceAllAux : List Char → Char → Char → List Char
  | [], _, _ => []
  | c :: cs, p, r => (if c = p then r else c) :: replaceAllAux cs p r

/-- The spec's wording for the default-path symbol cleaning: every
occurrence of `/` and of `\` replaced by `-`. -/
def specCleanSymbol (symbol : String) : String :=
  String.mk (replaceAllAux (replaceAllAux symbol.data '/' '-') '\\' '-')

/-- The default CSV path as the spec words it, with every separator
occurrence replaced. -/
def specDefaultCsvPath (exchangeId symbol : String) : String :=
  "./data/" ++ exchangeId ++ "_" ++ specCleanSymbol symbol ++ "_daily.csv"

/-- First-occurrence character replacement, specified independently of the
implementation: replace the element at the first index where the pattern
occurs, if any. -/
def replaceFirstSpec (cs : List Char) (p r : Char) : List Char :=
  match cs.findIdx? (fun c => c = p) with
  | none => cs
  | some i => cs.set i r

/-! ### Helper lemmas -/

theorem string_join_cons (s : String) (l : List String) :
    String.join (s :: l) = s ++ String.join l := by
  cases s with
  | mk d => simp only [String.join_eq, List.map, List.flatten]; rfl

theorem string_join_nil : String.join ([] : List String) = "" := by
  simp [String.join_eq]

theorem csv_foldl_eq_join (g : CsvRow → String) :
    ∀ (data : List CsvRow) (init : String),
      data.foldl (fun acc item => acc ++ g item) init =
        init ++ String.join (data.map g)
  | [], init => by simp [string_join_nil]
  | x :: xs, init => by
    simp only [List.foldl, List.map]
    rw [csv_foldl_eq_join g xs (init ++ g x), string_join_cons,
      String.append_assoc]

theorem replaceFirstAux_eq_spec (p r : Char) :
    ∀ cs : List Char, replaceFirstAux cs p r = replaceFirstSpec cs p r
  | [] => rfl
  | a :: cs => by
    simp only [replaceFirstAux, replaceFirstSpec, List.findIdx?_cons]
    by_cases ha : a = p
    · simp [ha]
    · simp only [ha, decide_False, if_false, ite_false]
      rw [replaceFirstAux_eq_spec p r cs]
      simp only [replaceFirstSpec]
      cases h : List.findIdx? (fun c => decide (c = p)) cs with
      | none => simp [h]
      | some i => simp [h, List.set]

/-- Taking a full page with a valid last timestamp continues the loop
with the cursor advanced to that timestamp plus one millisecond. -/
theorem fetchLoop_step {ε : Type} (f : String → Int → Nat → Except ε (List JSValue))
    (sym : String) (limit fuel : Nat) (s : Int) (acc page : List JSValue)
    (n : Nat) (t : Int)
    (hf : f sym s limit = Except.ok page)
    (hne : page.isEmpty = false)
    (ht : candleTimestamp? (page.getLast?.getD JSValue.undef) = some t)
    (hfull : ¬ page.length < limit) :
    fetchLoop f sym limit (fuel + 1) s acc n =
      fetchLoop f sym limit fuel (t + 1) (acc ++ page) (n + 1) := by
  simp [fetchLoop, hf, hne, ht, hfull]

/-- A page shorter than the limit (with a valid last timestamp) ends the
loop after being appended. -/
theorem fetchLoop_stop_short {ε : Type} (f : String → Int → Nat → Except ε (List JSValue))
    (sym : String) (limit fuel : Nat) (s : Int) (acc page : List JSValue)
    (n : Nat) (t : Int)
    (hf : f sym s limit = Except.ok page)
    (hne : page.isEmpty = false)
    (ht : candleTimestamp? (page.getLast?.getD JSValue.undef) = some t)
    (hshort : page.length < limit) :
    fetchLoop f sym limit (fuel + 1) s acc n =
      Except.ok (some (acc ++ page, n + 1)) := by
  simp [fetchLoop, hf, hne, ht, hshort]

/-- An empty page ends the loop without touching the accumulator. -/
theorem fetchLoop_stop_empty {ε : Type} (f : String → Int → Nat → Except ε (List JSValue))
    (sym : String) (limit fuel : Nat) (s : Int) (acc : List JSValue) (n : Nat)
    (hf : f sym s limit = Except.ok []) :
    fetchLoop f sym limit (fuel + 1) s acc n = Except.ok (some (acc, n + 1)) := by
  simp [fetchLoop, hf]

/-- A non-empty page whose last entry has no valid numeric timestamp ends
the loop after being appended. -/
theorem fetchLoop_stop_invalid {ε : Type} (f : String → Int → Nat → Except ε (List JSValue))
    (sym : String) (limit fuel : Nat) (s : Int) (acc page : List JSValue) (n : Nat)
    (hf : f sym s limit = Except.ok page)
    (hne : page.isEmpty = false)
    (ht : candleTimestamp? (page.getLast?.getD JSValue.undef) = none) :
    fetchLoop f sym limit (fuel + 1) s acc n =
      Except.ok (some (acc ++ page, n + 1)) := by
  simp [fetchLoop, hf, hne, ht]

/-- When the symbol resolves, `fetchSymbolData` is the loop run from the
start date with an empty accumulator and a zeroed request counter. -/
theorem fetchSymbolData_resolved {ε : Type} (markets : List String)
    (f : String → Int → Nat → Except ε (List JSValue)) (fuel : Nat)
    (symbol sym : String) (since : Option Int) (limit : Nat)
    (hres : resolveSymbol markets symbol = some sym) :
    fetchSymbolData (Except.ok markets) f fuel symbol since limit =
      fetchLoop f sym limit fuel (startDate since) [] 0 := by
  simp only [fetchSymbolData, hres]

/-- The claim's hypothesis on the adapter: every page it returns for the
resolved symbol consists of valid candles, with timestamps ordered within
the page by the relation `R` (instantiated at `≤` for the
non-decreasing reading of ascending, at `<` for the strict one) and all
at least the requested `since`. -/
def GoodAdapter {ε : Type} (R : Int → Int → Prop)
    (f : String → Int → Nat → Except ε (List JSValue))
    (sym : String) : Prop :=
  ∀ (s : Int) (limit : Nat) (page : List JSValue),
    f sym s limit = Except.ok page →
    (∀ v ∈ page, (candleTimestamp? v).isSome = true) ∧
    List.Chain' R (seriesTs page) ∧
    (∀ v ∈ page, s ≤ candleTs v)

/-- An element of a list chained by a sub-order of `≤` is at most the
list's last element. -/
theorem chain_le_getLast (R : Int → Int → Prop)
    (hle : ∀ a b : Int, R a b → a ≤ b) :
    ∀ (l : List Int), List.Chain' R l →
      ∀ x ∈ l, ∀ y : Int, l.getLast? = some y → x ≤ y
  | [], _, x, hx, _, _ => absurd hx (List.not_mem_nil x)
  | [a], _, x, hx, y, hy => by
    have hxa : x = a := by simpa using hx
    have hay : a = y := by simpa using hy
    exact le_of_eq (hxa.trans hay)
  | a :: b :: l, hc, x, hx, y, hy => by
    rw [List.chain'_cons] at hc
    rw [List.getLast?_cons_cons] at hy
    rcases List.mem_cons.mp hx with h | h
    · exact h ▸ le_trans (hle a b hc.1)
        (chain_le_getLast R hle (b :: l) hc.2 b (List.mem_cons_self b l) y hy)
    · exact chain_le_getLast R hle (b :: l) hc.2 x h y hy

/-- The value named by `getLast?` is a member of the list. -/
theorem mem_of_getLast?_int (l : List Int) (x : Int)
    (h : l.getLast? = some x) : x ∈ l := by
  obtain ⟨hne, rfl⟩ := List.mem_getLast?_eq_getLast h
  exact List.getLast_mem hne

/-- Invariant of the pagination loop: starting from an `R`-chained
accumulator whose timestamps all lie strictly below the cursor, a good
adapter yields an `R`-chained result series, for any order `R` between
`<` and `≤`. -/
theorem fetchLoop_sorted {ε : Type} (R : Int → Int → Prop)
    (hltR : ∀ a b : Int, a < b → R a b) (hle : ∀ a b : Int, R a b → a ≤ b)
    (f : String → Int → Nat → Except ε (List JSValue)) (sym : String)
    (limit : Nat) (hgood : GoodAdapter R f sym) :
    ∀ (fuel : Nat) (s : Int) (acc : List JSValue) (n : Nat)
      (data : List JSValue) (m : Nat),
      List.Chain' R (seriesTs acc) →
      (∀ u ∈ seriesTs acc, u < s) →
      fetchLoop f sym limit fuel s acc n = Except.ok (some (data, m)) →
      List.Chain' R (seriesTs data)
  | 0, s, acc, n => by
    intro data m hch hlt h
    simp [fetchLoop] at h
  | fuel + 1, s, acc, n => by
    intro data m hch hlt h
    rw [fetchLoop] at h
    cases hf : f sym s limit with
    | error e => rw [hf] at h; exact Except.noConfusion h
    | ok page =>
      rw [hf] at h
      simp only at h
      obtain ⟨-, hchp, hlb⟩ := hgood s limit page hf
      by_cases hemp : page.isEmpty = true
      · rw [if_pos hemp] at h
        simp only [Except.ok.injEq, Option.some.injEq, Prod.mk.injEq] at h
        exact h.1 ▸ hch
      · rw [if_neg hemp] at h
        have hpne : page ≠ [] := by
          cases page with
          | nil => simp at hemp
          | cons a as => exact List.cons_ne_nil a as
        have hchap : List.Chain' R (seriesTs (acc ++ page)) := by
          rw [seriesTs, List.map_append, List.chain'_append]
          refine ⟨hch, hchp, fun x hx y hy => ?_⟩
          have hxm : x ∈ seriesTs acc := mem_of_getLast?_int _ x hx
          have hym : y ∈ seriesTs page := List.mem_of_mem_head? hy
          obtain ⟨v, hv, rfl⟩ := List.mem_map.mp hym
          exact hltR x _ (lt_of_lt_of_le (hlt x hxm) (hlb v hv))
        cases ht : candleTimestamp? (page.getLast?.getD JSValue.undef) with
        | none =>
          rw [ht] at h
          simp only [Except.ok.injEq, Option.some.injEq, Prod.mk.injEq] at h
          exact h.1 ▸ hchap
        | some t =>
          rw [ht] at h
          simp only at h
          have hgl : page.getLast? = some (page.getLast hpne) :=
            List.getLast?_eq_getLast_of_ne_nil hpne
          have htlv : candleTimestamp? (page.getLast hpne) = some t := by
            rw [hgl] at ht
            simpa using ht
          have hts_last : (seriesTs page).getLast? = some t := by
            rw [seriesTs, List.getLast?_map, hgl]
            simp [candleTs, htlv]
          have hst : s ≤ t := by
            have := hlb (page.getLast hpne) (List.getLast_mem hpne)
            simpa [candleTs, htlv] using this
          have hlt2 : ∀ u ∈ seriesTs (acc ++ page), u < t + 1 := by
            intro u hu
            rw [seriesTs, List.map_append] at hu
            rcases List.mem_append.mp hu with hu1 | hu2
            · have := hlt u hu1
              omega
            · have := chain_le_getLast R hle (seriesTs page) hchp u hu2 t
                hts_last
              omega
          by_cases hshort : page.length < limit
          · rw [if_pos hshort] at h
            simp only [Except.ok.injEq, Option.some.injEq, Prod.mk.injEq] at h
            exact h.1 ▸ hchap
          · rw [if_neg hshort] at h
            exact fetchLoop_sorted R hltR hle f sym limit hgood fuel (t + 1)
              (acc ++ page) (n + 1) data m hchap hlt2 h

/-! ### Claim theorems: CSV writer -/

/-- C10: for the empty candle series, the CSV content is exactly the
header line `timestamp,open,high,low,close,volume` followed by a single
newline and nothing else. -/
theorem csv_empty_series (tzOffsetMs : Int) :
    csvContent tzOffsetMs [] = "timestamp,open,high,low,close,volume\n" :=
  rfl

/-- C8: every candle renders as the quoted local `YYYY-MM-DD` date
followed by the five raw numeric fields, comma-separated and
newline-terminated; in particular the single candle
`[1700000000000, 100.5, 110, 95, 105.25, 123.4]` yields the body line
`"D",100.5,110,95,105.25,123.4\n` with `D` the local calendar date of the
timestamp (under a zero UTC offset, `D = 2023-11-14`). -/
theorem csv_row_rendering :
    (∀ (tzOffsetMs : Int) (data : List CsvRow),
        csvContent tzOffsetMs data =
          csvHeader ++ String.join (data.map (csvRowLine tzOffsetMs)))
    ∧ (∀ tzOffsetMs : Int,
        csvRowLine tzOffsetMs
            ⟨1700000000000, "100.5", "110", "95", "105.25", "123.4"⟩ =
          "\"" ++ formattedDate tzOffsetMs 1700000000000 ++
            "\",100.5,110,95,105.25,123.4\n")
    ∧ csvContent 0 [⟨1700000000000, "100.5", "110", "95", "105.25", "123.4"⟩] =
        "timestamp,open,high,low,close,volume\n\"2023-11-14\",100.5,110,95,105.25,123.4\n" := by
  refine ⟨fun tz data => csv_foldl_eq_join (csvRowLine tz) data csvHeader,
    fun tz => ?_, by decide⟩
  simp only [csvRowLine, String.append_assoc]
  congr 1

/-- C9 counterexample: for exchange `okx` and symbol `A/B/C`, the code
derives `./data/okx_A-B/C_daily.csv` (only the first `/` is replaced),
not `./data/okx_A-B-C_daily.csv` as the claim's every-occurrence wording
demands. -/
theorem default_path_counterexample :
    resolveCsvPath "okx" "A/B/C" none = "./data/okx_A-B/C_daily.csv" ∧
    resolveCsvPath "okx" "A/B/C" none ≠ specDefaultCsvPath "okx" "A/B/C" ∧
    specDefaultCsvPath "okx" "A/B/C" = "./data/okx_A-B-C_daily.csv" :=
  ⟨rfl, by decide, rfl⟩

/-- C9 amended: when no explicit file path is given, the target path is
`./data/{exchangeId}_{S}_daily.csv` where `S` is the symbol with the
first occurrence of `/` and then the first occurrence of `\` each
replaced by `-`. -/
theorem default_path_first_occurrence (exchangeId symbol : String) :
    resolveCsvPath exchangeId symbol none =
      "./data/" ++ exchangeId ++ "_" ++
        String.mk
          (replaceFirstSpec (replaceFirstSpec symbol.data '/' '-') '\\' '-') ++
        "_daily.csv" := by
  simp only [resolveCsvPath, defaultCsvPath, cleanSymbol, jsReplaceFirst,
    replaceFirstAux_eq_spec]

/-! ### Claim theorems: symbol resolver -/

/-- C4: the resolver uses the requested symbol verbatim when it is in the
catalog; otherwise it tries the `-` variant, then the `_` variant, in
that fixed order, using the first variant present, and reports not-found
when none is. -/
theorem resolve_variant_priority (markets : List String) (symbol : String) :
    (markets.contains symbol = true →
      resolveSymbol markets symbol = some symbol) ∧
    (markets.contains symbol = false →
      markets.contains (jsReplaceFirst symbol '/' '-') = true →
      resolveSymbol markets symbol = some (jsReplaceFirst symbol '/' '-')) ∧
    (markets.contains symbol = false →
      markets.contains (jsReplaceFirst symbol '/' '-') = false →
      markets.contains (jsReplaceFirst symbol '/' '_') = true →
      resolveSymbol markets symbol = some (jsReplaceFirst symbol '/' '_')) ∧
    (markets.contains symbol = false →
      markets.contains (jsReplaceFirst symbol '/' '-') = false →
      markets.contains (jsReplaceFirst symbol '/' '_') = false →
      resolveSymbol markets symbol = none) := by
  refine ⟨fun h1 => ?_, fun h1 h2 => ?_, fun h1 h2 h3 => ?_,
    fun h1 h2 h3 => ?_⟩
  · simp only [resolveSymbol, h1, if_true]
  · simp only [resolveSymbol, h1, if_false, List.find?, h2,
      Bool.false_eq_true]
  · simp only [resolveSymbol, h1, if_false, List.find?, h2, h3,
      Bool.false_eq_true]
  · simp only [resolveSymbol, h1, if_false, List.find?, h2, h3,
      Bool.false_eq_true]

/-- C4 witness. -/
theorem resolve_variant_priority_witness :
    resolveSymbol ["ETH/USDT"] "ETH/USDT" = some "ETH/USDT" ∧
    resolveSymbol ["ETH-USDT"] "ETH/USDT" = some "ETH-USDT" ∧
    resolveSymbol ["ETH_USDT"] "ETH/USDT" = some "ETH_USDT" ∧
    resolveSymbol ["BTC/USDT"] "ETH/USDT" = none :=
  ⟨(resolve_variant_priority ["ETH/USDT"] "ETH/USDT").1 (by decide),
   (resolve_variant_priority ["ETH-USDT"] "ETH/USDT").2.1 (by decide)
     (by decide),
   (resolve_variant_priority ["ETH_USDT"] "ETH/USDT").2.2.1 (by decide)
     (by decide) (by decide),
   (resolve_variant_priority ["BTC/USDT"] "ETH/USDT").2.2.2 (by decide)
     (by decide) (by decide)⟩

/-! ### Claim theorems: paginated fetcher -/

/-- C5: for a symbol absent from the catalog under all three separator
variants, `fetchSymbolData` returns an empty series without raising an
error and issues zero `fetchOHLCV` requests. -/
theorem fetch_unknown_symbol_empty {ε : Type} (markets : List String)
    (f : String → Int → Nat → Except ε (List JSValue)) (fuel : Nat)
    (symbol : String) (since : Option Int) (limit : Nat)
    (h1 : markets.contains symbol = false)
    (h2 : markets.contains (jsReplaceFirst symbol '/' '-') = false)
    (h3 : markets.contains (jsReplaceFirst symbol '/' '_') = false) :
    fetchSymbolData (Except.ok markets) f fuel symbol since limit =
      Except.ok (some ([], 0)) := by
  have hres : resolveSymbol markets symbol = none := by
    simp only [resolveSymbol, h1, if_false, List.find?, h2, h3,
      Bool.false_eq_true]
  simp only [fetchSymbolData, hres]

/-- C5 witness. -/
theorem fetch_unknown_symbol_empty_witness :
    fetchSymbolData (Except.ok ["BTC/USDT"])
        (fun _ _ _ => (Except.ok [] : Except String (List JSValue))) 5
        "ETH/USDT" none 100 =
      Except.ok (some ([], 0)) :=
  fetch_unknown_symbol_empty ["BTC/USDT"] (fun _ _ _ => Except.ok []) 5
    "ETH/USDT" none 100 (by decide) (by decide) (by decide)

/-- C3: for an adapter whose first page is empty, `fetchSymbolData`
issues exactly 1 `fetchOHLCV` request and returns an empty series without
raising an error. -/
theorem fetch_empty_first_page {ε : Type} (markets : List String)
    (f : String → Int → Nat → Except ε (List JSValue)) (fuel : Nat)
    (symbol sym : String) (since : Option Int) (limit : Nat)
    (hres : resolveSymbol markets symbol = some sym)
    (hf : f sym (startDate since) limit = Except.ok []) :
    fetchSymbolData (Except.ok markets) f (fuel + 1) symbol since limit =
      Except.ok (some ([], 1)) := by
  rw [fetchSymbolData_resolved markets f (fuel + 1) symbol sym since limit hres,
    fetchLoop_stop_empty f sym limit fuel (startDate since) [] 0 hf]

/-- C3 witness. -/
theorem fetch_empty_first_page_witness :
    resolveSymbol ["ETH/USDT"] "ETH/USDT" = some "ETH/USDT" ∧
    fetchSymbolData (Except.ok ["ETH/USDT"])
        (fun _ _ _ => (Except.ok [] : Except String (List JSValue))) 1
        "ETH/USDT" none 100 =
      Except.ok (some ([], 1)) :=
  ⟨by decide,
   fetch_empty_first_page ["ETH/USDT"] (fun _ _ _ => Except.ok []) 0
     "ETH/USDT" "ETH/USDT" none 100 (by decide) rfl⟩

/-- C6: when a non-empty page's last entry lacks a valid numeric
timestamp (missing, not an array, empty, or with a non-number first
element), the pagination loop terminates immediately and returns, without
raising an error, everything accumulated so far — the offending page
included, since it is appended before the timestamp check. -/
theorem fetch_invalid_last_timestamp_stop {ε : Type}
    (f : String → Int → Nat → Except ε (List JSValue)) (sym : String)
    (limit fuel : Nat) (s : Int) (acc page : List JSValue) (n : Nat)
    (hf : f sym s limit = Except.ok page)
    (hne : page.isEmpty = false)
    (ht : candleTimestamp? (page.getLast?.getD JSValue.undef) = none) :
    fetchLoop f sym limit (fuel + 1) s acc n =
      Except.ok (some (acc ++ page, n + 1)) :=
  fetchLoop_stop_invalid f sym limit fuel s acc page n hf hne ht

/-- C6 witness: a page whose single entry is an empty array (no numeric
timestamp) is still returned, appended to the prior accumulator. -/
theorem fetch_invalid_last_timestamp_stop_witness :
    fetchLoop (fun _ _ _ => (Except.ok [JSValue.arr []] : Except String (List JSValue)))
        "ETH/USDT" 100 1 0 [JSValue.arr [JSValue.num 7]] 1 =
      Except.ok (some ([JSValue.arr [JSValue.num 7], JSValue.arr []], 2)) :=
  fetch_invalid_last_timestamp_stop
    (fun _ _ _ => Except.ok [JSValue.arr []]) "ETH/USDT" 100 0 0
    [JSValue.arr [JSValue.num 7]] [JSValue.arr []] 1 rfl rfl rfl

/-- An error outcome of the loop is always an error the adapter returned
for some cursor value, unchanged. -/
theorem fetchLoop_error_source {ε : Type}
    (f : String → Int → Nat → Except ε (List JSValue)) (sym : String)
    (limit : Nat) (e : ε) :
    ∀ (fuel : Nat) (s : Int) (acc : List JSValue) (n : Nat),
      fetchLoop f sym limit fuel s acc n = Except.error e →
      ∃ s2, f sym s2 limit = Except.error e
  | 0, s, acc, n => by
    intro h
    simp [fetchLoop] at h
  | fuel + 1, s, acc, n => by
    intro h
    rw [fetchLoop] at h
    cases hf : f sym s limit with
    | error e2 =>
      rw [hf] at h
      simp only at h
      cases h
      exact ⟨s, hf⟩
    | ok page =>
      rw [hf] at h
      simp only at h
      by_cases hemp : page.isEmpty = true
      · rw [if_pos hemp] at h
        cases h
      · rw [if_neg hemp] at h
        cases ht : candleTimestamp? (page.getLast?.getD JSValue.undef) with
        | none =>
          rw [ht] at h
          simp only at h
          cases h
        | some t =>
          rw [ht] at h
          simp only at h
          by_cases hshort : page.length < limit
          · rw [if_pos hshort] at h
            cases h
          · rw [if_neg hshort] at h
            exact fetchLoop_error_source f sym limit e fuel (t + 1)
              (acc ++ page) (n + 1) h

/-- C7: `fetchSymbolData` raises exactly the adapter's errors, unchanged:
an error from `loadMarkets` is the result verbatim; an error the adapter
raises for the page fetch at the current cursor is the loop's result
verbatim (no retry, no substitution); and conversely an error result
obtained with a loaded catalog is an error the adapter returned, for the
resolved symbol, at some cursor. -/
theorem fetch_error_propagation (ε : Type) :
    (∀ (f : String → Int → Nat → Except ε (List JSValue)) (fuel : Nat)
        (symbol : String) (since : Option Int) (limit : Nat) (e : ε),
        fetchSymbolData (Except.error e) f fuel symbol since limit =
          Except.error e) ∧
    (∀ (f : String → Int → Nat → Except ε (List JSValue)) (sym : String)
        (limit fuel : Nat) (s : Int) (acc : List JSValue) (n : Nat) (e : ε),
        f sym s limit = Except.error e →
        fetchLoop f sym limit (fuel + 1) s acc n = Except.error e) ∧
    (∀ (markets : List String)
        (f : String → Int → Nat → Except ε (List JSValue)) (fuel : Nat)
        (symbol : String) (since : Option Int) (limit : Nat) (e : ε),
        fetchSymbolData (Except.ok markets) f fuel symbol since limit =
          Except.error e →
        ∃ sym s2, resolveSymbol markets symbol = some sym ∧
          f sym s2 limit = Except.error e) := by
  refine ⟨fun f fuel symbol since limit e => rfl,
    fun f sym limit fuel s acc n e hf => by simp [fetchLoop, hf],
    fun markets f fuel symbol since limit e h => ?_⟩
  cases hres : resolveSymbol markets symbol with
  | none => rw [fetchSymbolData, hres] at h; cases h
  | some sym =>
    rw [fetchSymbolData, hres] at h
    obtain ⟨s2, hs2⟩ := fetchLoop_error_source f sym limit e fuel
      (startDate since) [] 0 h
    exact ⟨sym, s2, rfl, hs2⟩

/-- C7 witness: a `loadMarkets` error propagates verbatim, an adapter
error at the current cursor is the loop's result verbatim, and a
first-page fetch error is traced back to the adapter. -/
theorem fetch_error_propagation_witness :
    fetchSymbolData (Except.error "boom")
        (fun _ _ _ => (Except.ok [] : Except String (List JSValue))) 3
        "ETH/USDT" none 100 =
      Except.error "boom" ∧
    fetchLoop
        (fun _ _ _ => (Except.error "net" : Except String (List JSValue)))
        "ETH/USDT" 100 1 0 [] 0 =
      Except.error "net" ∧
    (∃ sym s2, resolveSymbol ["ETH/USDT"] "ETH/USDT" = some sym ∧
      (fun (_ : String) (_ : Int) (_ : Nat) =>
          (Except.error "net" : Except String (List JSValue))) sym s2 100 =
        Except.error "net") :=
  ⟨(fetch_error_propagation String).1 (fun _ _ _ => Except.ok []) 3
      "ETH/USDT" none 100 "boom",
   (fetch_error_propagation String).2.1 (fun _ _ _ => Except.error "net")
      "ETH/USDT" 100 0 0 [] 0 "net" rfl,
   (fetch_error_propagation String).2.2 ["ETH/USDT"]
      (fun _ _ _ => Except.error "net") 3 "ETH/USDT" none 100 "net" rfl⟩

/-- A list of known non-zero length is not `isEmpty`. -/
theorem isEmpty_false_of_length (l : List JSValue) (k : Nat)
    (hl : l.length = k + 1) : l.isEmpty = false := by
  cases l with
  | nil => simp at hl
  | cons a as => rfl

/-- C1: for an adapter answering the three successive cursors with pages
of sizes 100, 100 and 37 under a page-size limit of 100,
`fetchSymbolData` issues exactly 3 requests, returns the 237-candle
concatenation of the three pages, and stops after the third page because
its size is strictly below the limit. -/
theorem fetch_three_pages_short_stop {ε : Type} (markets : List String)
    (f : String → Int → Nat → Except ε (List JSValue)) (fuel : Nat)
    (symbol sym : String) (since : Option Int)
    (p1 p2 p3 : List JSValue) (t1 t2 : Int)
    (hres : resolveSymbol markets symbol = some sym)
    (hf1 : f sym (startDate since) 100 = Except.ok p1)
    (hl1 : p1.length = 100)
    (ht1 : candleTimestamp? (p1.getLast?.getD JSValue.undef) = some t1)
    (hf2 : f sym (t1 + 1) 100 = Except.ok p2)
    (hl2 : p2.length = 100)
    (ht2 : candleTimestamp? (p2.getLast?.getD JSValue.undef) = some t2)
    (hf3 : f sym (t2 + 1) 100 = Except.ok p3)
    (hl3 : p3.length = 37) :
    fetchSymbolData (Except.ok markets) f (fuel + 3) symbol since 100 =
      Except.ok (some (p1 ++ p2 ++ p3, 3)) ∧
    (p1 ++ p2 ++ p3).length = 237 := by
  have hne1 : p1.isEmpty = false := isEmpty_false_of_length p1 99 (by omega)
  have hne2 : p2.isEmpty = false := isEmpty_false_of_length p2 99 (by omega)
  have hne3 : p3.isEmpty = false := isEmpty_false_of_length p3 36 (by omega)
  constructor
  · rw [fetchSymbolData_resolved markets f (fuel + 3) symbol sym since 100 hres]
    have e1 : fetchLoop f sym 100 (fuel + 2 + 1) (startDate since) [] 0 =
        fetchLoop f sym 100 (fuel + 2) (t1 + 1) ([] ++ p1) 1 :=
      fetchLoop_step f sym 100 (fuel + 2) (startDate since) [] p1 0 t1 hf1
        hne1 ht1 (by omega)
    have e2 : fetchLoop f sym 100 (fuel + 1 + 1) (t1 + 1) ([] ++ p1) 1 =
        fetchLoop f sym 100 (fuel + 1) (t2 + 1) ([] ++ p1 ++ p2) 2 :=
      fetchLoop_step f sym 100 (fuel + 1) (t1 + 1) ([] ++ p1) p2 1 t2 hf2
        hne2 ht2 (by omega)
    have e3 : fetchLoop f sym 100 (fuel + 1) (t2 + 1) ([] ++ p1 ++ p2) 2 =
        Except.ok (some ([] ++ p1 ++ p2 ++ p3, 3)) := by
      cases ht3 : candleTimestamp? (p3.getLast?.getD JSValue.undef) with
      | none =>
        exact fetchLoop_stop_invalid f sym 100 fuel (t2 + 1)
          ([] ++ p1 ++ p2) p3 2 hf3 hne3 ht3
      | some t3 =>
        exact fetchLoop_stop_short f sym 100 fuel (t2 + 1)
          ([] ++ p1 ++ p2) p3 2 t3 hf3 hne3 ht3 (by omega)
    calc fetchLoop f sym 100 (fuel + 3) (startDate since) [] 0 =
        fetchLoop f sym 100 (fuel + 2) (t1 + 1) ([] ++ p1) 1 := e1
      _ = fetchLoop f sym 100 (fuel + 1) (t2 + 1) ([] ++ p1 ++ p2) 2 := e2
      _ = Except.ok (some ([] ++ p1 ++ p2 ++ p3, 3)) := e3
      _ = Except.ok (some (p1 ++ p2 ++ p3, 3)) := by simp
  · simp [hl1, hl2, hl3]

/-- Witness page of `len` consecutive integer-timestamp candles starting
at `base`. -/
def wPage (base : Int) (len : Nat) : List JSValue :=
  (List.range len).map (fun i => JSValue.arr [JSValue.num (base + i)])

/-- Witness adapter: pages of sizes 100, 100, 37 at the three cursors the
fetcher reaches. -/
def wAdapter : String → Int → Nat → Except String (List JSValue) :=
  fun _ s _ =>
    if s = startDate none then Except.ok (wPage 0 100)
    else if s = 100 then Except.ok (wPage 100 100)
    else if s = 200 then Except.ok (wPage 200 37)
    else Except.ok []

/-- C1 witness. -/
theorem fetch_three_pages_short_stop_witness :
    fetchSymbolData (Except.ok ["ETH/USDT"]) wAdapter 3 "ETH/USDT" none 100 =
      Except.ok (some (wPage 0 100 ++ wPage 100 100 ++ wPage 200 37, 3)) ∧
    (wPage 0 100 ++ wPage 100 100 ++ wPage 200 37).length = 237 :=
  fetch_three_pages_short_stop ["ETH/USDT"] wAdapter 0 "ETH/USDT" "ETH/USDT"
    none (wPage 0 100) (wPage 100 100) (wPage 200 37) 99 199 (by decide)
    rfl rfl (by decide) rfl rfl (by decide) rfl rfl

/-- C2: after each non-empty full page the fetcher re-requests with the
since cursor set to the page's last timestamp plus one millisecond, and —
for an adapter returning, within each page, candles ascending in
timestamp with timestamps at least the requested since — the
concatenation of all fetched batches has non-decreasing timestamps. -/
theorem fetch_cursor_and_sorted (ε : Type) :
    (∀ (f : String → Int → Nat → Except ε (List JSValue)) (sym : String)
        (limit fuel : Nat) (s : Int) (acc page : List JSValue) (n : Nat)
        (t : Int),
        f sym s limit = Except.ok page →
        page.isEmpty = false →
        candleTimestamp? (page.getLast?.getD JSValue.undef) = some t →
        ¬ page.length < limit →
        fetchLoop f sym limit (fuel + 1) s acc n =
          fetchLoop f sym limit fuel (t + 1) (acc ++ page) (n + 1)) ∧
    (∀ (markets : List String)
        (f : String → Int → Nat → Except ε (List JSValue)) (fuel : Nat)
        (symbol sym : String) (since : Option Int) (limit : Nat)
        (data : List JSValue) (m : Nat),
        resolveSymbol markets symbol = some sym →
        GoodAdapter (· ≤ ·) f sym →
        fetchSymbolData (Except.ok markets) f fuel symbol since limit =
          Except.ok (some (data, m)) →
        List.Chain' (· ≤ ·) (seriesTs data)) ∧
    (∀ (markets : List String)
        (f : String → Int → Nat → Except ε (List JSValue)) (fuel : Nat)
        (symbol sym : String) (since : Option Int) (limit : Nat)
        (data : List JSValue) (m : Nat),
        resolveSymbol markets symbol = some sym →
        GoodAdapter (· < ·) f sym →
        fetchSymbolData (Except.ok markets) f fuel symbol since limit =
          Except.ok (some (data, m)) →
        List.Chain' (· < ·) (seriesTs data)) := by
  refine ⟨fun f sym limit fuel s acc page n t hf hne ht hfull =>
      fetchLoop_step f sym limit fuel s acc page n t hf hne ht hfull,
    fun markets f fuel symbol sym since limit data m hres hgood h => ?_,
    fun markets f fuel symbol sym since limit data m hres hgood h => ?_⟩
  · rw [fetchSymbolData_resolved markets f fuel symbol sym since limit hres]
      at h
    exact fetchLoop_sorted (· ≤ ·) (fun a b => le_of_lt) (fun a b hab => hab)
      f sym limit hgood fuel (startDate since) [] 0 data m
      (by simp [seriesTs]) (by simp [seriesTs]) h
  · rw [fetchSymbolData_resolved markets f fuel symbol sym since limit hres]
      at h
    exact fetchLoop_sorted (· < ·) (fun a b hab => hab)
      (fun a b => le_of_lt) f sym limit hgood fuel (startDate since) [] 0
      data m (by simp [seriesTs]) (by simp [seriesTs]) h

/-- C2 witness: one full single-candle page advances the cursor to its
timestamp plus one; an adapter returning only empty pages is good and
yields a chained (empty) series. -/
theorem fetch_cursor_and_sorted_witness :
    fetchLoop (fun _ _ _ => (Except.ok (wPage 0 1) : Except String (List JSValue)))
        "ETH/USDT" 1 1 5 [] 0 =
      fetchLoop (fun _ _ _ => (Except.ok (wPage 0 1) : Except String (List JSValue)))
        "ETH/USDT" 1 0 (0 + 1) ([] ++ wPage 0 1) (0 + 1) ∧
    List.Chain' (· ≤ ·) (seriesTs []) ∧
    List.Chain' (· < ·) (seriesTs []) :=
  ⟨(fetch_cursor_and_sorted String).1 (fun _ _ _ => Except.ok (wPage 0 1))
      "ETH/USDT" 1 0 5 [] (wPage 0 1) 0 0 rfl rfl rfl (by decide),
   (fetch_cursor_and_sorted String).2.1 ["ETH/USDT"]
      (fun _ _ _ => Except.ok []) 1 "ETH/USDT" "ETH/USDT" none 100 [] 1
      (by decide)
      (fun s limit page h => by
        cases h
        exact ⟨by simp, by simp [seriesTs], by simp⟩)
      rfl,
   (fetch_cursor_and_sorted String).2.2 ["ETH/USDT"]
      (fun _ _ _ => Except.ok []) 1 "ETH/USDT" "ETH/USDT" none 100 [] 1
      (by decide)
      (fun s limit page h => by
        cases h
        exact ⟨by simp, by simp [seriesTs], by simp⟩)
      rfl⟩

end CexSpider
